import Mathlib

/-!
# Verification of the willsub cache-and-match core

Shallow embedding of the TTL caches, session-refresh policy, preference
filter, job normalization and schedule-comparison engine of the willsub
repository, with theorems settling the specification claims.

Conventions of the embedding:
* JavaScript timestamps (`Date.now()`, `getTime()`) are integers (ms).
* A `Date` value obtained from `new Date(s)` is either a valid timestamp
  or the JS `Invalid Date`; comparisons against `Invalid Date` are false.
* JS object fields that may be absent are `Option`; the JS `||` fallback
  on strings treats the empty string as falsy, which the helpers below
  reproduce.
-/

namespace Willsub

/-- A JavaScript `Date` value: `new Date(s)` yields either a valid
timestamp (ms since epoch) or `Invalid Date`. -/
inductive JSDate where
  | invalid
  | valid (ms : Int)
deriving DecidableEq, Repr

/-- JS `<=` on `Date` values: any comparison involving `Invalid Date`
is false (NaN comparisons). -/
def jsLe : JSDate → JSDate → Bool
  | JSDate.valid a, JSDate.valid b => decide (a ≤ b)
  | _, _ => false

/-!
## JobComparisonModule (src/jobs/JobComparisonModule.ts)

A job as seen by `compare`.  The fields hold the result of the source's
field accesses: `startDate`/`endDate`/`date` are the job's date-string
fields after `parseDate` (`none` when the string is missing or empty, so
that the JS `||` fallback on the strings coincides with `Option.orElse`);
`buildingId` is `job.schedules?.[0]?.building?.id || null` (so a falsy id
such as 0 is already `none`); `buildingName` is
`job.schedules?.[0]?.building?.name` (`none` when absent).
-/
structure CmpJob where
  startDate : Option JSDate
  endDate : Option JSDate
  date : Option JSDate
  buildingId : Option Int
  buildingName : Option String
deriving DecidableEq, Repr

/-- `JobComparisonModule.getDateRange`: start string is
`job.startDate || job.date`, end string is `job.endDate || job.date`;
`null` (here `none`) when either side fails to produce a date. -/
def getDateRange (j : CmpJob) : Option (JSDate × JSDate) :=
  match j.startDate.orElse (fun _ => j.date), j.endDate.orElse (fun _ => j.date) with
  | some s, some e => some (s, e)
  | _, _ => none

/-- `JobComparisonModule.datesOverlap`: closed-interval overlap
`start1 <= end2 && start2 <= end1`. -/
def datesOverlap (start1 end1 start2 end2 : JSDate) : Bool :=
  jsLe start1 end2 && jsLe start2 end1

/-- A conflict record of `ComparisonResult`. -/
structure Conflict where
  available : CmpJob
  scheduled : CmpJob
  reason : String
deriving DecidableEq, Repr

/-- The conflict record built inside the scan loop of `compare`.  The
reason distinguishes `availableBuilding === scheduledBuilding` (JS
`===`: `null === null` is true, matching `Option` equality) from the
cross-building case; the locale-formatted dates interpolated into the
source's message are omitted from the modelled string. -/
def mkConflict (available scheduled : CmpJob) : Conflict :=
  let buildingName := scheduled.buildingName.getD "Unknown"
  let reason :=
    if available.buildingId = scheduled.buildingId then
      "Same building (" ++ buildingName ++ ") on overlapping dates"
    else
      "Already scheduled on same date at " ++ buildingName ++ " - potential double-booking"
  ⟨available, scheduled, reason⟩

/-- The inner loop of `compare`: scan the scheduled jobs in input order;
skip those without a parseable range; at the first overlap, push one
conflict record and `break`. -/
def scanScheduled (available : CmpJob) (r : JSDate × JSDate) :
    List CmpJob → Option Conflict
  | [] => none
  | scheduled :: rest =>
    match getDateRange scheduled with
    | none => scanScheduled available r rest
    | some rs =>
      if datesOverlap r.1 r.2 rs.1 rs.2 then
        some (mkConflict available scheduled)
      else
        scanScheduled available r rest

/-- Summary counts of `ComparisonResult`. -/
structure Summary where
  totalScheduled : Nat
  totalAvailable : Nat
  newOpportunities : Nat
  conflicts : Nat
deriving DecidableEq, Repr

/-- `ComparisonResult` (the advisory `recommendations` strings of the
source, which no claim concerns, are not modelled). -/
structure ComparisonResult where
  newOpportunities : List CmpJob
  conflicts : List Conflict
  summary : Summary
deriving DecidableEq, Repr

/-- The outer loop of `compare` over the available jobs: a job without a
parseable date range is skipped (`continue`); otherwise it yields either
the first conflict found by the scheduled-jobs scan or a new
opportunity. -/
def compareAux (scheduledJobs : List CmpJob) : List CmpJob → List CmpJob × List Conflict
  | [] => ([], [])
  | available :: rest =>
    let acc := compareAux scheduledJobs rest
    match getDateRange available with
    | none => acc
    | some r =>
      match scanScheduled available r scheduledJobs with
      | some c => (acc.1, c :: acc.2)
      | none => (available :: acc.1, acc.2)

/-- `JobComparisonModule.compare`. -/
def compare (scheduledJobs availableJobs : List CmpJob) : ComparisonResult :=
  let acc := compareAux scheduledJobs availableJobs
  { newOpportunities := acc.1
    conflicts := acc.2
    summary :=
      ⟨scheduledJobs.length, availableJobs.length, acc.1.length, acc.2.length⟩ }

/-- Whether a scheduled job's (parseable) date range overlaps the range
`r`; false when the scheduled job has no parseable range. -/
def overlapsRange (r : JSDate × JSDate) (scheduled : CmpJob) : Bool :=
  match getDateRange scheduled with
  | some rs => datesOverlap r.1 r.2 rs.1 rs.2
  | none => false

/-!
## JS string helpers

The JS `||` fallback treats the empty string as falsy; absent object
fields are `none`.
-/

/-- JS truthiness of a possibly-absent string: present and non-empty. -/
def truthy : Option String → Bool
  | some s => !(s = "")
  | none => false

/-- JS `a || b` where `a` is a possibly-absent string and `b` a string:
the fallback fires when `a` is absent or empty. -/
def jsOrStr : Option String → String → String
  | some s, b => if s = "" then b else s
  | none, b => b

/-- JS `a || null` (and `a || undefined`) on a possibly-absent string:
a falsy value (absent or empty) becomes `none`. -/
def jsOrNullStr (a : Option String) : Option String :=
  if truthy a then a else none

/-!
## JobsModule (JobsModule.ts): normalization

`RawJob` models the fields of a raw API record that the parsers read,
each `none` when the key is absent.  Raw keys named `time` or `location`
are not modelled (assumed absent from API payloads).  `position` is used
directly as a string by the parser (`job.position`), and
`positionTypeTitle` stands for `job.positionType?.title`.
-/

/-- First element of a raw job's `schedules` array. -/
structure RawSchedule where
  startTime : Option String
  buildingTitle : Option String
deriving DecidableEq, Repr

/-- A raw job record, restricted to the keys the parsers read or that
the returned object literal also defines. -/
structure RawJob where
  id : Option String
  jobId : Option String
  positionTitle : Option String
  position : Option String
  positionTypeTitle : Option String
  title : Option String
  startDate : Option String
  endDate : Option String
  date : Option String
  status : Option String
  schedules : List RawSchedule
deriving DecidableEq, Repr

/-- The normalized job record returned by the parsers.  The source
returns the object literal `{id, title, date: startDate, time, location,
status, ...job}`: because the spread comes last, a key present in the
raw record overrides the computed one.  `startDate`/`endDate` are keys
only the spread can contribute, so they are the raw values. -/
structure Job where
  id : String
  title : String
  date : String
  time : String
  location : String
  status : String
  startDate : Option String
  endDate : Option String
deriving DecidableEq, Repr

/-- Spread-override semantics for a key both computed and possibly
present in the raw record: `{key: computed, ...job}` keeps the raw value
whenever the raw record has the key. -/
def spreadOverride (rawField : Option String) (computed : String) : String :=
  rawField.getD computed

/-- The per-record body of `JobsModule.parseAvailableJobs`: a missing
`startDate` defaults to today's date and a missing `endDate` to the
start date — but the computed `endDate` is not among the returned
literal's keys, and the trailing `...job` spread overrides the computed
`date` when the raw record has a `date` key. -/
def normalizeAvailable (today : String) (raw : RawJob) : Job :=
  let id := jsOrStr raw.id (jsOrStr raw.jobId "")
  let title := jsOrStr raw.positionTitle (jsOrStr raw.position
    (jsOrStr raw.positionTypeTitle (jsOrStr raw.title "Untitled")))
  let startDate := jsOrStr raw.startDate today
  let _endDate := jsOrStr raw.endDate startDate
  let time :=
    match raw.schedules.head? with
    | some schedule => if truthy schedule.startTime then schedule.startTime.getD "" else ""
    | none => ""
  let location :=
    match raw.schedules.head? with
    | some schedule => jsOrStr schedule.buildingTitle ""
    | none => ""
  { id := spreadOverride raw.id id
    title := spreadOverride raw.title title
    date := spreadOverride raw.date startDate
    time := time
    location := location
    status := spreadOverride raw.status (jsOrStr raw.status "available")
    startDate := raw.startDate
    endDate := raw.endDate }

/-- The per-record body of `JobsModule.parseScheduledJobs`: a missing
`startDate`/`endDate` falls back to the empty string, never to today.
Same returned-literal and spread-override shape as the available
parser; here `location` reads `schedule.building?.title`. -/
def normalizeScheduled (raw : RawJob) : Job :=
  let id := jsOrStr raw.id (jsOrStr raw.jobId "")
  let title := jsOrStr raw.positionTitle (jsOrStr raw.position
    (jsOrStr raw.positionTypeTitle (jsOrStr raw.title "Untitled")))
  let startDate := jsOrStr raw.startDate ""
  let _endDate := jsOrStr raw.endDate ""
  let time :=
    match raw.schedules.head? with
    | some schedule => if truthy schedule.startTime then schedule.startTime.getD "" else ""
    | none => ""
  let location :=
    match raw.schedules.head? with
    | some schedule => jsOrStr schedule.buildingTitle ""
    | none => ""
  { id := spreadOverride raw.id id
    title := spreadOverride raw.title title
    date := spreadOverride raw.date startDate
    time := time
    location := location
    status := spreadOverride raw.status (jsOrStr raw.status "scheduled")
    startDate := raw.startDate
    endDate := raw.endDate }

/-- The shapes of a raw API payload the parsers accept: `{content: [...]}`
(checked first), a bare array, `{jobs: [...]}`, a null/undefined body, or
anything else (yielding `[]`). -/
inductive RawPayload where
  | nullish
  | contentArr (content : List RawJob)
  | arr (jobs : List RawJob)
  | jobsArr (jobs : List RawJob)
  | other
deriving DecidableEq, Repr

/-- The job list a payload contributes (the shape dispatch shared by
both parsers). -/
def payloadList : RawPayload → List RawJob
  | RawPayload.contentArr l => l
  | RawPayload.arr l => l
  | RawPayload.jobsArr l => l
  | RawPayload.nullish => []
  | RawPayload.other => []

/-- `JobsModule.parseScheduledJobs`. -/
def parseScheduledJobs (data : RawPayload) : List Job :=
  (payloadList data).map normalizeScheduled

/-- `JobsModule.parseAvailableJobs`; `today` is
`new Date().toISOString().split('T')[0]` at call time. -/
def parseAvailableJobs (today : String) (data : RawPayload) : List Job :=
  (payloadList data).map (normalizeAvailable today)

/-!
## JobsModule: TTL cache and fetch operations
-/

/-- The two job kinds cached by `JobsModule`. -/
inductive JobType where
  | scheduled
  | available
deriving DecidableEq, Repr

/-- The mutable state of a `JobsModule` instance: the `cachedJobs` and
`cacheTimestamp` maps (one optional entry per kind) and the configured
`cacheTTL` in ms. -/
structure JobsState where
  cachedScheduled : Option (List Job)
  cachedAvailable : Option (List Job)
  timestampScheduled : Option Int
  timestampAvailable : Option Int
  cacheTTL : Int
deriving DecidableEq, Repr

/-- `this.cachedJobs.get(jobType)`. -/
def JobsState.cachedAt (st : JobsState) : JobType → Option (List Job)
  | JobType.scheduled => st.cachedScheduled
  | JobType.available => st.cachedAvailable

/-- `this.cacheTimestamp.get(jobType)`. -/
def JobsState.timestampAt (st : JobsState) : JobType → Option Int
  | JobType.scheduled => st.timestampScheduled
  | JobType.available => st.timestampAvailable

/-- A freshly constructed `JobsModule`: empty maps, default TTL
5 minutes (300000 ms) unless configured. -/
def initJobsState (cacheTTL : Int := 300000) : JobsState :=
  ⟨none, none, none, none, cacheTTL⟩

/-- `JobsModule.isCacheValid`: `if (!timestamp) return false` — a falsy
timestamp (no entry, or a stored value of exactly 0, which JS treats
the same way) reports invalid; otherwise
`Date.now() - timestamp < cacheTTL`. -/
def isCacheValid (st : JobsState) (jobType : JobType) (now : Int) : Bool :=
  match st.timestampAt jobType with
  | none => false
  | some timestamp =>
    if timestamp = 0 then false
    else decide (now - timestamp < st.cacheTTL)

/-- `JobsModule.getFromCache`: the cached list, only when the cache is
valid and the list is present. -/
def getFromCache (st : JobsState) (jobType : JobType) (now : Int) : Option (List Job) :=
  if isCacheValid st jobType now then
    match st.cachedAt jobType with
    | some jobs => some jobs
    | none => none
  else
    none

/-- `JobsModule.saveToCache`: store the list and stamp it with
`Date.now()`. -/
def saveToCache (st : JobsState) (jobType : JobType) (jobs : List Job) (now : Int) : JobsState :=
  match jobType with
  | JobType.scheduled =>
    { st with cachedScheduled := some jobs, timestampScheduled := some now }
  | JobType.available =>
    { st with cachedAvailable := some jobs, timestampAvailable := some now }

/-- `JobsModule.getCachedJobs`: `this.cachedJobs.get(jobType) || []`,
with no validity check. -/
def getCachedJobs (st : JobsState) (jobType : JobType) : List Job :=
  (st.cachedAt jobType).getD []

/-- `JobsModule.hasCachedJobs`: delegates to `isCacheValid`. -/
def hasCachedJobs (st : JobsState) (jobType : JobType) (now : Int) : Bool :=
  isCacheValid st jobType now

/-- Result record of the fetch operations (`JobsFetchResult`). -/
structure JobsFetchResult where
  success : Bool
  jobs : List Job
  totalCount : Nat
  timestamp : Int
  message : Option String := none
  statusCode : Option Int := none
deriving DecidableEq, Repr

/-- What the job source does when the module actually issues the HTTP
request: an HTTP response (any status; `validateStatus: () => true`
means no status throws) or a transport-level exception. -/
inductive NetOutcome where
  | response (status : Int) (data : RawPayload)
  | exn (message : String)
deriving DecidableEq, Repr

/-- One fetch call's outcome: the returned result, the module state
afterwards, and whether a network request was issued. -/
structure FetchStep where
  result : JobsFetchResult
  state : JobsState
  networkCalled : Bool
deriving DecidableEq, Repr

/-- `JobsModule.fetchScheduledJobs`: serve from cache when valid;
otherwise issue the request, fail (without caching) on a non-200 status
or a thrown error, and parse + cache on 200. -/
def fetchScheduledJobs (st : JobsState) (now : Int) (response : NetOutcome) : FetchStep :=
  match getFromCache st JobType.scheduled now with
  | some cached =>
    ⟨{ success := true, jobs := cached, totalCount := cached.length, timestamp := now,
       message := some "Loaded from cache" }, st, false⟩
  | none =>
    match response with
    | NetOutcome.response status data =>
      if status ≠ 200 then
        ⟨{ success := false, jobs := [], totalCount := 0, timestamp := now,
           message := some ("API returned " ++ toString status),
           statusCode := some status }, st, true⟩
      else
        let jobs := parseScheduledJobs data
        ⟨{ success := true, jobs := jobs, totalCount := jobs.length, timestamp := now,
           message := some ("Fetched " ++ toString jobs.length ++ " scheduled jobs") },
         saveToCache st JobType.scheduled jobs now, true⟩
    | NetOutcome.exn message =>
      ⟨{ success := false, jobs := [], totalCount := 0, timestamp := now,
         message := some message }, st, true⟩

/-- `JobsModule.fetchAvailableJobs`: same cache-then-fetch shape as the
scheduled variant, on the `available` key, parsing with today's date. -/
def fetchAvailableJobs (st : JobsState) (now : Int) (today : String)
    (response : NetOutcome) : FetchStep :=
  match getFromCache st JobType.available now with
  | some cached =>
    ⟨{ success := true, jobs := cached, totalCount := cached.length, timestamp := now,
       message := some "Loaded from cache" }, st, false⟩
  | none =>
    match response with
    | NetOutcome.response status data =>
      if status ≠ 200 then
        ⟨{ success := false, jobs := [], totalCount := 0, timestamp := now,
           message := some ("API returned " ++ toString status),
           statusCode := some status }, st, true⟩
      else
        let jobs := parseAvailableJobs today data
        ⟨{ success := true, jobs := jobs, totalCount := jobs.length, timestamp := now,
           message := some ("Fetched " ++ toString jobs.length ++ " available jobs") },
         saveToCache st JobType.available jobs now, true⟩
    | NetOutcome.exn message =>
      ⟨{ success := false, jobs := [], totalCount := 0, timestamp := now,
         message := some message }, st, true⟩

/-!
## PuppeteerAuthModule (src/auth/PuppeteerAuthModule.ts)

The session side-channel store is the cache file's parsed content
(`none`: file absent or unreadable).
-/

/-- The persisted session bundle (`CachedSession`). -/
structure CachedSession where
  cookies : String
  bearerToken : Option String
  userId : Option String
  timestamp : Int
  ttl : Int
deriving DecidableEq, Repr

/-- The in-memory state of a `PuppeteerAuthModule` instance plus the
cache file it owns. -/
structure AuthState where
  cachedCookies : Option String
  cachedToken : Option String
  cachedUserId : Option String
  isAuthenticated : Bool
  cacheFile : Option CachedSession
deriving DecidableEq, Repr

/-- `PuppeteerAuthModule.loadCachedCookies`: absent file → false; an
entry older than its TTL (`age > cached.ttl`) clears the file and
reports false; otherwise the bundle is adopted into the instance
fields (`|| null` maps falsy token/userId to `none`). -/
def loadCachedCookies (st : AuthState) (now : Int) : Bool × AuthState :=
  match st.cacheFile with
  | none => (false, st)
  | some cached =>
    if now - cached.timestamp > cached.ttl then
      (false, { st with cacheFile := none })
    else
      (true,
       { st with
         cachedCookies := some cached.cookies
         cachedToken := jsOrNullStr cached.bearerToken
         cachedUserId := jsOrNullStr cached.userId
         isAuthenticated := true })

/-- `PuppeteerAuthModule.hasCachedSession`. -/
def hasCachedSession (st : AuthState) : Bool :=
  st.cachedCookies.isSome && st.isAuthenticated

/-- What `verifyAndRefreshAuth` decides to do: proactively
re-authenticate (`reAuthenticate()`), answer from the cached session, or
fall through to a fresh `login()`. -/
inductive AuthAction where
  | reAuth
  | useCached (bearerToken userId : Option String)
  | freshLogin
deriving DecidableEq, Repr

/-- `PuppeteerAuthModule.verifyAndRefreshAuth`: forced refresh
re-authenticates; with a cached session, a truthy token and a readable
cache file, re-authenticate when `ageMs > cache.ttl * 0.8` (the JS
double product `ttl * 0.8` is exact at the ms values concerned, so the
rational literal models it) and otherwise answer from the cache;
in every other case fall through to `login()`. -/
def verifyAndRefreshAuth (st : AuthState) (now : Int) (forceRefresh : Bool) : AuthAction :=
  if forceRefresh then
    AuthAction.reAuth
  else if hasCachedSession st && truthy st.cachedToken then
    match st.cacheFile with
    | some cache =>
      let ageMs := now - cache.timestamp
      if ((ageMs : ℚ) > (cache.ttl : ℚ) * (8 / 10)) then
        AuthAction.reAuth
      else
        AuthAction.useCached (jsOrNullStr st.cachedToken) (jsOrNullStr st.cachedUserId)
    | none => AuthAction.freshLogin
  else
    AuthAction.freshLogin

/-!
## JobPreferencesManager (JobPreferencesManager.ts)

`PJob` models the fields `filterJob` reads from a job record.  Date
strings are represented by their parsed ms timestamps (`new
Date(s).getTime()`), assumed parseable; `endDateMs` is `none` when
`job.endDate` is absent or empty, so the JS `job.endDate || job.date`
fallback is `Option.getD`.
-/

/-- A job record as read by `filterJob`. -/
structure PJob where
  positionTypeTitle : Option String
  positionObjTitle : Option String
  buildingName : Option String
  buildingId : Option Int
  scheduleType : Option String
  longTerm : Bool
  dateMs : Int
  endDateMs : Option Int
deriving DecidableEq, Repr

/-- The preference rule set.  The source checks
`prefs.field && prefs.field.length > 0` before using a list, so an
absent array and an empty one behave identically and both are `[]`
here.  `onlyMultipleDays` is read for truthiness only. -/
structure JobPreferences where
  preferredPositionTypes : List String := []
  preferredBuildings : List String := []
  preferredBuildingIds : List Int := []
  preferredScheduleTypes : List String := []
  excludePositionTypes : List String := []
  excludeBuildings : List String := []
  excludeBuildingIds : List Int := []
  includeLongTerm : Option Bool := none
  includeShortTerm : Option Bool := none
  onlyMultipleDays : Bool := false
  minDays : Option Int := none
  maxDays : Option Int := none
deriving DecidableEq, Repr

/-- `FilterResult`. -/
structure FilterResult where
  passed : Bool
  reason : Option String
deriving DecidableEq, Repr

/-- Whether the first char list is a prefix of the second. -/
def charListPrefix : List Char → List Char → Bool
  | [], _ => true
  | _ :: _, [] => false
  | a :: as, b :: bs => a == b && charListPrefix as bs

/-- Whether the first char list occurs contiguously in the second. -/
def charListInfix (sub : List Char) : List Char → Bool
  | [] => sub.isEmpty
  | c :: rest => charListPrefix sub (c :: rest) || charListInfix sub rest

/-- ASCII-level lower-casing of a char list. -/
def lowerChars (l : List Char) : List Char :=
  l.map Char.toLower

/-- JS `s.toLowerCase().includes(sub.toLowerCase())` (ASCII-level case
folding). -/
def containsIgnoreCase (s sub : String) : Bool :=
  charListInfix (lowerChars sub.toList) (lowerChars s.toList)

/-- JS truthiness of a possibly-absent number: present and non-zero. -/
def jsTruthyInt : Option Int → Bool
  | some v => !(v = 0)
  | none => false

/-- Rendering of a possibly-undefined id inside a template literal. -/
def showOptInt : Option Int → String
  | some v => toString v
  | none => "undefined"

/-- `job.positionType?.title || job.position?.title || ''`. -/
def positionTypeOf (job : PJob) : String :=
  jsOrStr job.positionTypeTitle (jsOrStr job.positionObjTitle "")

/-- `job.schedules?.[0]?.building?.name || ''`. -/
def buildingNameOf (job : PJob) : String :=
  jsOrStr job.buildingName ""

/-- The duration-in-days computation appearing verbatim in the
`onlyMultipleDays`, `minDays` and `maxDays` branches of `filterJob`:
`Math.ceil((endDate - startDate) / (1000*60*60*24)) + 1`.  The JS
double quotient is exact whenever the difference is a multiple of a
day, so `Int.ceil` over `ℚ` models `Math.ceil`. -/
def durationDays (startMs endMs : Int) : Int :=
  Int.ceil (((endMs - startMs : Int) : ℚ) / (1000 * 60 * 60 * 24)) + 1

/-- `new Date(job.date)` / `new Date(job.endDate || job.date)` duration
of a job as computed inside `filterJob`. -/
def durationDaysOf (job : PJob) : Int :=
  durationDays job.dateMs (job.endDateMs.getD job.dateMs)

/-- Rule (1): exclude-by-position-type; the loop returns on the first
matching exclude entry. -/
def checkExcludePositionTypes (prefs : JobPreferences) (job : PJob) : Option FilterResult :=
  match prefs.excludePositionTypes.find? (fun ex => containsIgnoreCase (positionTypeOf job) ex) with
  | some excludeType =>
    some ⟨false, some ("Excluded position type: \"" ++ excludeType ++ "\" found in \""
      ++ positionTypeOf job ++ "\"")⟩
  | none => none

/-- Rule (2): exclude-by-building-name substring. -/
def checkExcludeBuildings (prefs : JobPreferences) (job : PJob) : Option FilterResult :=
  match prefs.excludeBuildings.find? (fun ex => containsIgnoreCase (buildingNameOf job) ex) with
  | some excludeBuilding =>
    some ⟨false, some ("Excluded building: \"" ++ excludeBuilding ++ "\" found in \""
      ++ buildingNameOf job ++ "\"")⟩
  | none => none

/-- Rule (3): exclude-by-building-id; the guard `buildingId && ...`
skips a falsy (absent or 0) id. -/
def checkExcludeBuildingIds (prefs : JobPreferences) (job : PJob) : Option FilterResult :=
  if jsTruthyInt job.buildingId
      && prefs.excludeBuildingIds.contains (job.buildingId.getD 0) then
    some ⟨false, some ("Excluded building ID: " ++ showOptInt job.buildingId)⟩
  else
    none

/-- Rule (4): long/short-term inclusion flags; only evaluated when at
least one of the two flags is configured; `!== false` makes each flag
default to true. -/
def checkJobTypeFlags (prefs : JobPreferences) (job : PJob) : Option FilterResult :=
  if prefs.includeLongTerm.isSome || prefs.includeShortTerm.isSome then
    let isLongTerm := job.longTerm
    let includeLongTerm := !(prefs.includeLongTerm = some false)
    let includeShortTerm := !(prefs.includeShortTerm = some false)
    if isLongTerm && !includeLongTerm then
      some ⟨false, some "Long-term jobs are excluded from your preferences"⟩
    else if !isLongTerm && !includeShortTerm then
      some ⟨false, some "Short-term jobs are excluded from your preferences"⟩
    else
      none
  else
    none

/-- Rule (5): include-by-position-type (must match at least one when
configured). -/
def checkPreferredPositionTypes (prefs : JobPreferences) (job : PJob) : Option FilterResult :=
  if prefs.preferredPositionTypes.isEmpty then
    none
  else if prefs.preferredPositionTypes.any (fun p => containsIgnoreCase (positionTypeOf job) p) then
    none
  else
    some ⟨false, some ("Position type \"" ++ positionTypeOf job
      ++ "\" does not match preferences: "
      ++ String.intercalate ", " prefs.preferredPositionTypes)⟩

/-- Rule (6): include-by-building-name. -/
def checkPreferredBuildings (prefs : JobPreferences) (job : PJob) : Option FilterResult :=
  if prefs.preferredBuildings.isEmpty then
    none
  else if prefs.preferredBuildings.any (fun p => containsIgnoreCase (buildingNameOf job) p) then
    none
  else
    some ⟨false, some ("Building \"" ++ buildingNameOf job
      ++ "\" does not match preferences: "
      ++ String.intercalate ", " prefs.preferredBuildings)⟩

/-- Rule (7): include-by-building-id; `!buildingId || !includes(...)`
rejects a falsy id outright. -/
def checkPreferredBuildingIds (prefs : JobPreferences) (job : PJob) : Option FilterResult :=
  if prefs.preferredBuildingIds.isEmpty then
    none
  else if !(jsTruthyInt job.buildingId)
      || !(prefs.preferredBuildingIds.contains (job.buildingId.getD 0)) then
    some ⟨false, some ("Building ID " ++ showOptInt job.buildingId
      ++ " does not match preferred IDs: "
      ++ String.intercalate ", " (prefs.preferredBuildingIds.map toString))⟩
  else
    none

/-- Rule (8): include-by-schedule-type (exact membership on
`job.schedules?.[0]?.scheduleType || ''`). -/
def checkPreferredScheduleTypes (prefs : JobPreferences) (job : PJob) : Option FilterResult :=
  if prefs.preferredScheduleTypes.isEmpty then
    none
  else
    let scheduleType := jsOrStr job.scheduleType ""
    if prefs.preferredScheduleTypes.contains scheduleType then
      none
    else
      some ⟨false, some ("Schedule type \"" ++ scheduleType ++ "\" not in preferred: "
        ++ String.intercalate ", " prefs.preferredScheduleTypes)⟩

/-- Rule (9): the multi-day-only constraint. -/
def checkOnlyMultipleDays (prefs : JobPreferences) (job : PJob) : Option FilterResult :=
  if prefs.onlyMultipleDays then
    if durationDaysOf job < 2 then
      some ⟨false, some "Single-day job (only multiple-day jobs preferred)"⟩
    else
      none
  else
    none

/-- Rule (10): minimum-days; the guard `minDays && minDays > 0` skips
zero or negative configured values. -/
def checkMinDays (prefs : JobPreferences) (job : PJob) : Option FilterResult :=
  match prefs.minDays with
  | some minDays =>
    if 0 < minDays then
      if durationDaysOf job < minDays then
        some ⟨false, some ("Duration " ++ toString (durationDaysOf job)
          ++ " days is less than minimum " ++ toString minDays)⟩
      else
        none
    else
      none
  | none => none

/-- Rule (11): maximum-days; same zero-guard as `minDays`. -/
def checkMaxDays (prefs : JobPreferences) (job : PJob) : Option FilterResult :=
  match prefs.maxDays with
  | some maxDays =>
    if 0 < maxDays then
      if maxDays < durationDaysOf job then
        some ⟨false, some ("Duration " ++ toString (durationDaysOf job)
          ++ " days exceeds maximum " ++ toString maxDays)⟩
      else
        none
    else
      none
  | none => none

/-- `JobPreferencesManager.filterJob`: the eleven checks in source
order, each early-returning its rejection; a job failing none of them
passes. -/
def filterJob (prefs : JobPreferences) (job : PJob) : FilterResult :=
  match checkExcludePositionTypes prefs job with
  | some r => r
  | none =>
  match checkExcludeBuildings prefs job with
  | some r => r
  | none =>
  match checkExcludeBuildingIds prefs job with
  | some r => r
  | none =>
  match checkJobTypeFlags prefs job with
  | some r => r
  | none =>
  match checkPreferredPositionTypes prefs job with
  | some r => r
  | none =>
  match checkPreferredBuildings prefs job with
  | some r => r
  | none =>
  match checkPreferredBuildingIds prefs job with
  | some r => r
  | none =>
  match checkPreferredScheduleTypes prefs job with
  | some r => r
  | none =>
  match checkOnlyMultipleDays prefs job with
  | some r => r
  | none =>
  match checkMinDays prefs job with
  | some r => r
  | none =>
  match checkMaxDays prefs job with
  | some r => r
  | none => ⟨true, none⟩

/-- `JobPreferencesManager.filterJobs`: order-preserving partition by
`filterJob`. -/
def filterJobs (prefs : JobPreferences) (jobs : List PJob) :
    List PJob × List (PJob × String) :=
  match jobs with
  | [] => ([], [])
  | job :: rest =>
    let acc := filterJobs prefs rest
    let result := filterJob prefs job
    if result.passed then
      (job :: acc.1, acc.2)
    else
      (acc.1, (job, result.reason.getD "Unknown reason") :: acc.2)

/-!
## Concrete records used by witnesses and counterexamples
-/

/-- A raw job record with every modelled key absent. -/
def rawJobAllAbsent : RawJob :=
  ⟨none, none, none, none, none, none, none, none, none, none, []⟩

/-- A raw job record missing `startDate` but carrying a raw `date`
key. -/
def rawJobWithRawDate : RawJob :=
  { rawJobAllAbsent with date := some "2020-05-05" }

/-- A rule set that both excludes and prefers the position type
"Teacher". -/
def teacherBothPrefs : JobPreferences :=
  { excludePositionTypes := ["Teacher"], preferredPositionTypes := ["Teacher"] }

/-- A job whose position-type title is "Teacher". -/
def teacherPJob : PJob :=
  ⟨some "Teacher", none, none, none, none, false, 0, none⟩

/-!
## Claim C1: first-match conflict classification in `compare`
-/

theorem scanScheduled_eq_find (available : CmpJob) (r : JSDate × JSDate)
    (l : List CmpJob) :
    scanScheduled available r l = (l.find? (overlapsRange r)).map (mkConflict available) := by
  induction l with
  | nil => rfl
  | cons s rest ih =>
    simp only [scanScheduled, List.find?, overlapsRange]
    cases h : getDateRange s with
    | none => simpa using ih
    | some rs =>
      by_cases hov : datesOverlap r.1 r.2 rs.1 rs.2
      · simp [hov]
      · simp [hov, ih]

/-- Claim C1: for every list of scheduled jobs, `compare` classifies each
available job whose dates parse as exactly one of conflict or new
opportunity: the first scheduled job in input order whose closed date
range overlaps it (`start1 ≤ end2 ∧ start2 ≤ end1`, single-point touches
included, via `datesOverlap`) produces exactly one conflict record and
halts the scan (`List.find?` = first-match wins); if no scheduled job
overlaps, the job is added to `newOpportunities`. -/
theorem compare_first_match_classification (scheduledJobs availableJobs : List CmpJob) :
    (compare scheduledJobs availableJobs).conflicts
      = availableJobs.filterMap (fun a =>
          (getDateRange a).bind fun r =>
            (scheduledJobs.find? (overlapsRange r)).map (mkConflict a))
    ∧ (compare scheduledJobs availableJobs).newOpportunities
      = availableJobs.filter (fun a =>
          match getDateRange a with
          | some r => (scheduledJobs.find? (overlapsRange r)).isNone
          | none => false) := by
  suffices h : (compareAux scheduledJobs availableJobs).2
        = availableJobs.filterMap (fun a =>
            (getDateRange a).bind fun r =>
              (scheduledJobs.find? (overlapsRange r)).map (mkConflict a))
      ∧ (compareAux scheduledJobs availableJobs).1
        = availableJobs.filter (fun a =>
            match getDateRange a with
            | some r => (scheduledJobs.find? (overlapsRange r)).isNone
            | none => false) by
    exact ⟨h.1, h.2⟩
  induction availableJobs with
  | nil => exact ⟨rfl, rfl⟩
  | cons a rest ih =>
    simp only [compareAux, List.filterMap, List.filter]
    cases hr : getDateRange a with
    | none => simpa using ih
    | some r =>
      cases hf : (scheduledJobs.find? (overlapsRange r)) with
      | none => simp [scanScheduled_eq_find, hf, ih.1, ih.2]
      | some s => simp [scanScheduled_eq_find, hf, ih.1, ih.2]

/-!
## Claim C2: TTL validity of the two cache embeddings
-/

/-- Claim C2 counterexample: the claimed validity condition
`isValid ⇔ now − storedAt < ttl` fails in both embeddings.  Session
cache: a bundle stored at time 0 with ttl 5 is still returned at time 5
(age = ttl, so `now − storedAt < ttl` is false), because
`loadCachedCookies` only expires strictly beyond the TTL
(`age > cached.ttl`).  Job cache: an entry stored at time 0 is never
returned — a get immediately after the put misses although
`now − storedAt = 0 < ttl` — because `isCacheValid`'s falsy-timestamp
guard (`if (!timestamp) return false`) treats the stored 0 as no
entry. -/
theorem ttl_validity_counterexample :
    ((loadCachedCookies ⟨none, none, none, false, some ⟨"ck", none, none, 0, 5⟩⟩ 5).1 = true
      ∧ ¬ ((5 : Int) - 0 < 5))
    ∧ (getFromCache (saveToCache (initJobsState 300000) JobType.available [] 0)
          JobType.available 0 = none
      ∧ (0 : Int) - 0 < (initJobsState 300000).cacheTTL) := by
  exact ⟨⟨by decide, by decide⟩, by decide, by decide⟩

/-- Claim C2 (amended): for every key, value and ttl > 0, and every
store time with a nonzero (JS-truthy) timestamp, a job-cache get
immediately after put returns the stored value, and the value is
returned iff `now − storedAt < ttl`; an entry whose stored timestamp is
exactly 0 is instead treated as absent by the falsy-timestamp guard.
The session cache's expiry check in `loadCachedCookies` obeys
`isValid ⇔ now − storedAt ≤ ttl`: a bundle whose age equals the TTL is
still returned, and only ages strictly beyond the TTL behave as
absent. -/
theorem ttl_cache_validity (st : JobsState) (jobType : JobType) (jobs : List Job)
    (t now : Int) (httl : 0 < st.cacheTTL) (ht : t ≠ 0) :
    getFromCache (saveToCache st jobType jobs t) jobType t = some jobs
    ∧ (getFromCache (saveToCache st jobType jobs t) jobType now = some jobs
        ↔ now - t < st.cacheTTL)
    ∧ (∀ ast : AuthState, ∀ sess : CachedSession, ast.cacheFile = some sess →
        ((loadCachedCookies ast now).1 = true ↔ now - sess.timestamp ≤ sess.ttl)) := by
  refine ⟨?_, ?_, ?_⟩
  · cases jobType <;>
      simp [getFromCache, saveToCache, isCacheValid, JobsState.timestampAt,
        JobsState.cachedAt, httl, ht]
  · cases jobType <;>
      · simp only [getFromCache, saveToCache, isCacheValid, JobsState.timestampAt,
          JobsState.cachedAt, if_neg ht]
        split_ifs with h
        · simp_all
        · simp_all
  · intro ast sess hfile
    simp only [loadCachedCookies, hfile]
    split_ifs with h
    · simp
      omega
    · simp
      omega

/-- Witness for `ttl_cache_validity` at a concrete input (store time
1, a JS-truthy timestamp). -/
theorem ttl_cache_validity_witness :
    0 < (initJobsState 300000).cacheTTL
    ∧ (1 : Int) ≠ 0
    ∧ getFromCache (saveToCache (initJobsState 300000) JobType.available [] 1)
        JobType.available 1 = some [] :=
  ⟨by decide, by decide,
   (ttl_cache_validity (initJobsState 300000) JobType.available [] 1 10 (by decide)
     (by decide)).1⟩

/-!
## Claim C3: session staleness threshold
-/

/-- Claim C3 counterexample: the proactive-refresh threshold is strict.
With a bundle of ttl 100 stored at time 0 and a check at time 80
(age = 0.8·ttl exactly, so age ≥ 0.8·ttl holds), `verifyAndRefreshAuth`
does not refresh: the source condition is `ageMs > cache.ttl * 0.8`, so
it returns the cached bundle instead. -/
theorem verifyAuth_no_refresh_at_exact_threshold :
    verifyAndRefreshAuth
        ⟨some "ck", some "tok", none, true, some ⟨"ck", some "tok", none, 0, 100⟩⟩ 80 false
      = AuthAction.useCached (some "tok") none
    ∧ ((80 : ℚ) - 0 ≥ (8 / 10) * 100) := by
  constructor
  · have htr : truthy (some "tok") = true := by decide
    norm_num [verifyAndRefreshAuth, hasCachedSession, htr, jsOrNullStr, truthy]
    decide
  · norm_num

/-- Claim C3 (amended): when a cached session bundle exists (cached
session, truthy token, readable cache file) and no forced refresh is
requested, `verifyAndRefreshAuth` triggers a proactive re-authentication
exactly when the bundle's age is strictly greater than 0.8·ttl (so
age = 0.81·ttl refreshes, age = 0.79·ttl does not, and age = 0.8·ttl
exactly also does not); below the threshold it returns the cached
bundle unchanged. -/
theorem verifyAuth_staleness_threshold (st : AuthState) (sess : CachedSession) (now : Int)
    (hfile : st.cacheFile = some sess)
    (hsession : hasCachedSession st = true)
    (htoken : truthy st.cachedToken = true) :
    (verifyAndRefreshAuth st now false = AuthAction.reAuth
      ↔ ((now : ℚ) - (sess.timestamp : ℚ) > (8 / 10) * (sess.ttl : ℚ)))
    ∧ (¬ ((now : ℚ) - (sess.timestamp : ℚ) > (8 / 10) * (sess.ttl : ℚ)) →
        verifyAndRefreshAuth st now false
          = AuthAction.useCached st.cachedToken (jsOrNullStr st.cachedUserId)) := by
  have htok : jsOrNullStr st.cachedToken = st.cachedToken := by
    simp [jsOrNullStr, htoken]
  have heq : verifyAndRefreshAuth st now false
      = if (((now - sess.timestamp : Int) : ℚ) > (sess.ttl : ℚ) * (8 / 10)) then
          AuthAction.reAuth
        else
          AuthAction.useCached st.cachedToken (jsOrNullStr st.cachedUserId) := by
    simp [verifyAndRefreshAuth, hsession, htoken, hfile, htok]
  have hcast : (((now - sess.timestamp : Int) : ℚ) > (sess.ttl : ℚ) * (8 / 10))
      ↔ ((now : ℚ) - (sess.timestamp : ℚ) > (8 / 10) * (sess.ttl : ℚ)) := by
    push_cast
    constructor <;> intro h <;> linarith
  rw [heq]
  simp only [hcast]
  split_ifs with h
  · exact ⟨by simp [h], fun hc => absurd h hc⟩
  · exact ⟨iff_of_false (by simp) h, fun _ => rfl⟩


/-- Witness for `verifyAuth_staleness_threshold` at a concrete input:
age 79 against ttl 100 (age = 0.79·ttl) does not refresh. -/
theorem verifyAuth_staleness_threshold_witness :
    (verifyAndRefreshAuth
        ⟨some "ck", some "tok", none, true, some ⟨"ck", some "tok", none, 0, 100⟩⟩ 79 false
      = AuthAction.reAuth
      ↔ ((79 : Int) : ℚ) - ((0 : Int) : ℚ) > (8 / 10) * ((100 : Int) : ℚ))
    ∧ (¬ (((79 : Int) : ℚ) - ((0 : Int) : ℚ) > (8 / 10) * ((100 : Int) : ℚ)) →
        verifyAndRefreshAuth
            ⟨some "ck", some "tok", none, true, some ⟨"ck", some "tok", none, 0, 100⟩⟩ 79 false
          = AuthAction.useCached (some "tok") (jsOrNullStr none)) :=
  verifyAuth_staleness_threshold
    ⟨some "ck", some "tok", none, true, some ⟨"ck", some "tok", none, 0, 100⟩⟩
    ⟨"ck", some "tok", none, 0, 100⟩ 79 rfl (by decide) (by decide)

/-!
## Claim C4: cache idempotence of the available-jobs fetch
-/

/-- Claim C4 counterexample: the claim's universal statement fails at a
first call made at `Date.now() = 0`.  Both calls share the same inputs
and the second falls inside the TTL window, yet both issue a network
request: the first call stores timestamp 0, which `isCacheValid`'s
falsy-timestamp guard then treats as no entry. -/
theorem fetch_available_second_call_at_epoch :
    (fetchAvailableJobs (initJobsState 300000) 0 "2024-06-01"
        (NetOutcome.response 200 RawPayload.other)).networkCalled = true
    ∧ (0 : Int) - 0 < (initJobsState 300000).cacheTTL
    ∧ (fetchAvailableJobs
        (fetchAvailableJobs (initJobsState 300000) 0 "2024-06-01"
          (NetOutcome.response 200 RawPayload.other)).state
        0 "2024-06-01" (NetOutcome.response 200 RawPayload.other)).networkCalled = true := by
  exact ⟨by decide, by decide, by decide⟩

/-- Claim C4 (amended): calling the available-jobs fetch twice within
the TTL window performs exactly one network call and returns identical
job lists both times, provided the first call happens at a nonzero
(JS-truthy) timestamp: a first call that misses the cache issues the
request and stores the parsed list, and a second call within the TTL is
served from that cache with no second request.  (A first call at
`Date.now() = 0` would store a falsy timestamp that the validity guard
treats as no entry.) -/
theorem fetch_available_idempotent_within_ttl
    (st : JobsState) (t1 t2 : Int) (today1 today2 : String) (data : RawPayload)
    (resp2 : NetOutcome)
    (hmiss : getFromCache st JobType.available t1 = none)
    (ht1 : t1 ≠ 0)
    (horder : t1 ≤ t2)
    (hwin : t2 - t1 < st.cacheTTL) :
    (fetchAvailableJobs st t1 today1 (NetOutcome.response 200 data)).networkCalled = true
    ∧ (fetchAvailableJobs
        (fetchAvailableJobs st t1 today1 (NetOutcome.response 200 data)).state
        t2 today2 resp2).networkCalled = false
    ∧ (fetchAvailableJobs
        (fetchAvailableJobs st t1 today1 (NetOutcome.response 200 data)).state
        t2 today2 resp2).result.jobs
      = (fetchAvailableJobs st t1 today1 (NetOutcome.response 200 data)).result.jobs
    ∧ (fetchAvailableJobs st t1 today1 (NetOutcome.response 200 data)).result.success = true
    ∧ (fetchAvailableJobs
        (fetchAvailableJobs st t1 today1 (NetOutcome.response 200 data)).state
        t2 today2 resp2).result.success = true := by
  have hstep1 : fetchAvailableJobs st t1 today1 (NetOutcome.response 200 data)
      = ⟨{ success := true, jobs := parseAvailableJobs today1 data,
           totalCount := (parseAvailableJobs today1 data).length, timestamp := t1,
           message := some ("Fetched " ++ toString (parseAvailableJobs today1 data).length
             ++ " available jobs") },
         saveToCache st JobType.available (parseAvailableJobs today1 data) t1, true⟩ := by
    simp [fetchAvailableJobs, hmiss]
  have hhit : getFromCache (saveToCache st JobType.available (parseAvailableJobs today1 data) t1)
      JobType.available t2 = some (parseAvailableJobs today1 data) := by
    simp [getFromCache, saveToCache, isCacheValid, JobsState.timestampAt, JobsState.cachedAt,
      ht1, hwin]
  rw [hstep1]
  refine ⟨rfl, ?_, ?_, rfl, ?_⟩ <;>
    simp [fetchAvailableJobs, hhit]

/-- Witness for `fetch_available_idempotent_within_ttl` at a concrete
input. -/
theorem fetch_available_idempotent_witness :
    getFromCache (initJobsState 300000) JobType.available 1 = none
    ∧ (1 : Int) ≠ 0
    ∧ (1 : Int) ≤ 100
    ∧ (100 : Int) - 1 < (initJobsState 300000).cacheTTL
    ∧ (fetchAvailableJobs (initJobsState 300000) 1 "2024-06-01"
        (NetOutcome.response 200 RawPayload.other)).networkCalled = true
    ∧ (fetchAvailableJobs
        (fetchAvailableJobs (initJobsState 300000) 1 "2024-06-01"
          (NetOutcome.response 200 RawPayload.other)).state
        100 "2024-06-01" (NetOutcome.exn "down")).networkCalled = false
    ∧ (fetchAvailableJobs
        (fetchAvailableJobs (initJobsState 300000) 1 "2024-06-01"
          (NetOutcome.response 200 RawPayload.other)).state
        100 "2024-06-01" (NetOutcome.exn "down")).result.jobs
      = (fetchAvailableJobs (initJobsState 300000) 1 "2024-06-01"
          (NetOutcome.response 200 RawPayload.other)).result.jobs := by
  have h := fetch_available_idempotent_within_ttl (initJobsState 300000) 1 100
    "2024-06-01" "2024-06-01" RawPayload.other (NetOutcome.exn "down")
    rfl (by decide) (by decide) (by decide)
  exact ⟨rfl, by decide, by decide, by decide, h.1, h.2.1, h.2.2.1⟩

/-!
## Claim C5: non-200 responses fail without touching the cache
-/

/-- Claim C5: when the job source responds with a non-200 status (on an
actual network call, i.e. a cache miss), both fetch operations return a
failure result carrying that status code and a message, with an empty
job list, and the module state — including any previously stored entry
and its timestamp — is exactly the state before the call. -/
theorem fetch_non200_fails_without_caching
    (st : JobsState) (now : Int) (today : String) (status : Int) (data : RawPayload)
    (hstatus : status ≠ 200)
    (hmissS : getFromCache st JobType.scheduled now = none)
    (hmissA : getFromCache st JobType.available now = none) :
    (fetchScheduledJobs st now (NetOutcome.response status data)).result.success = false
    ∧ (fetchScheduledJobs st now (NetOutcome.response status data)).result.jobs = []
    ∧ (fetchScheduledJobs st now (NetOutcome.response status data)).result.statusCode
        = some status
    ∧ (fetchScheduledJobs st now (NetOutcome.response status data)).result.message
        = some ("API returned " ++ toString status)
    ∧ (fetchScheduledJobs st now (NetOutcome.response status data)).state = st
    ∧ (fetchAvailableJobs st now today (NetOutcome.response status data)).result.success = false
    ∧ (fetchAvailableJobs st now today (NetOutcome.response status data)).result.jobs = []
    ∧ (fetchAvailableJobs st now today (NetOutcome.response status data)).result.statusCode
        = some status
    ∧ (fetchAvailableJobs st now today (NetOutcome.response status data)).result.message
        = some ("API returned " ++ toString status)
    ∧ (fetchAvailableJobs st now today (NetOutcome.response status data)).state = st := by
  simp [fetchScheduledJobs, fetchAvailableJobs, hmissS, hmissA, hstatus]

/-- Witness for `fetch_non200_fails_without_caching` at a concrete
input (status 500 against an empty cache). -/
theorem fetch_non200_witness :
    (500 : Int) ≠ 200
    ∧ (fetchScheduledJobs (initJobsState 300000) 0
        (NetOutcome.response 500 RawPayload.other)).state = initJobsState 300000
    ∧ (fetchAvailableJobs (initJobsState 300000) 0 "2024-06-01"
        (NetOutcome.response 500 RawPayload.other)).result.statusCode = some 500 := by
  have h := fetch_non200_fails_without_caching (initJobsState 300000) 0 "2024-06-01" 500
    RawPayload.other (by decide) rfl rfl
  exact ⟨by decide, h.2.2.2.2.1, h.2.2.2.2.2.2.2.1⟩

/-!
## Claim C10: expired entries stay readable through `getCachedJobs`
-/

/-- Claim C10: for every job kind, `getCachedJobs` returns the most
recently stored job list regardless of the entry's age (it consults no
clock at all, so also after the TTL has elapsed), and returns the empty
list on a freshly constructed module where nothing was stored; while
`hasCachedJobs` reports false for an entry whose age is ≥ the TTL — so
expired data remains readable although the cache reports it absent. -/
theorem cached_jobs_readable_after_expiry
    (st : JobsState) (jobType : JobType) (jobs : List Job) (t now ttl : Int)
    (hexp : st.cacheTTL ≤ now - t) :
    getCachedJobs (saveToCache st jobType jobs t) jobType = jobs
    ∧ hasCachedJobs (saveToCache st jobType jobs t) jobType now = false
    ∧ getCachedJobs (initJobsState ttl) jobType = [] := by
  refine ⟨?_, ?_, ?_⟩ <;>
    cases jobType <;>
      simp [getCachedJobs, hasCachedJobs, saveToCache, isCacheValid, initJobsState,
        JobsState.cachedAt, JobsState.timestampAt] <;>
      omega

/-- Witness for `cached_jobs_readable_after_expiry` at a concrete
input: an entry stored at time 0 read at exactly the TTL. -/
theorem cached_jobs_readable_witness :
    (initJobsState 300000).cacheTTL ≤ (300000 : Int) - 0
    ∧ getCachedJobs
        (saveToCache (initJobsState 300000) JobType.scheduled [] 0) JobType.scheduled = []
    ∧ hasCachedJobs
        (saveToCache (initJobsState 300000) JobType.scheduled [] 0) JobType.scheduled 300000
      = false := by
  have h := cached_jobs_readable_after_expiry (initJobsState 300000) JobType.scheduled []
    0 300000 7 (by decide)
  exact ⟨by decide, h.1, h.2.1⟩

/-!
## Claim C6: exclude rules are evaluated before include rules
-/

/-- Claim C6: for every job and preference set containing both an
exclude-position-type rule matching the job's title and a
preferred-position-type rule matching it, `filterJob` rejects the job,
and its reason names an exclude rule (the first matching one): the
exclude check runs first and short-circuits evaluation. -/
theorem filter_exclude_beats_include
    (prefs : JobPreferences) (job : PJob) (ex inc : String)
    (hexMem : ex ∈ prefs.excludePositionTypes)
    (hexMatch : containsIgnoreCase (positionTypeOf job) ex = true)
    (hincMem : inc ∈ prefs.preferredPositionTypes)
    (hincMatch : containsIgnoreCase (positionTypeOf job) inc = true) :
    (filterJob prefs job).passed = false
    ∧ ∃ e, e ∈ prefs.excludePositionTypes
        ∧ containsIgnoreCase (positionTypeOf job) e = true
        ∧ (filterJob prefs job).reason
            = some ("Excluded position type: \"" ++ e ++ "\" found in \""
                ++ positionTypeOf job ++ "\"") := by
  have hsome : (prefs.excludePositionTypes.find?
      (fun x => containsIgnoreCase (positionTypeOf job) x)).isSome := by
    rw [List.find?_isSome]
    exact ⟨ex, hexMem, hexMatch⟩
  obtain ⟨e, hfind⟩ := Option.isSome_iff_exists.mp hsome
  have hmem := List.mem_of_find?_eq_some hfind
  have hp : containsIgnoreCase (positionTypeOf job) e = true := List.find?_some hfind
  have hcheck : checkExcludePositionTypes prefs job
      = some ⟨false, some ("Excluded position type: \"" ++ e ++ "\" found in \""
          ++ positionTypeOf job ++ "\"")⟩ := by
    simp [checkExcludePositionTypes, hfind]
  exact ⟨by simp [filterJob, hcheck], e, hmem, hp, by simp [filterJob, hcheck]⟩

/-- Witness for `filter_exclude_beats_include` at a concrete input: the
rule set excludes and prefers "Teacher" and the job title is
"Teacher". -/
theorem filter_exclude_beats_include_witness :
    "Teacher" ∈ teacherBothPrefs.excludePositionTypes
    ∧ (filterJob teacherBothPrefs teacherPJob).passed = false := by
  have h := filter_exclude_beats_include teacherBothPrefs teacherPJob
    "Teacher" "Teacher" (by decide) (by decide) (by decide) (by decide)
  exact ⟨by decide, h.1⟩

/-!
## Claim C7: duration-in-days computation
-/

/-- Claim C7: everywhere the preference filter evaluates the duration
constraints (`onlyMultipleDays`, `minDays`, `maxDays`), the duration is
`ceil((end − start) / 1 day) + 1`, inclusive of both endpoints:
start = end yields 1 day, and start = 2024-01-15 (ms 1705276800000)
with end = 2024-01-16 (ms 1705363200000) yields 2 days; the three
duration branches of `filterJob` each gate on exactly this value. -/
theorem filter_duration_days :
    (∀ s : Int, durationDays s s = 1)
    ∧ durationDays 1705276800000 1705363200000 = 2
    ∧ (∀ job : PJob,
        (filterJob { onlyMultipleDays := true } job).passed
          = decide (2 ≤ durationDaysOf job))
    ∧ (∀ job : PJob, ∀ m : Int,
        (filterJob { minDays := some m } job).passed
          = if 0 < m then decide (m ≤ durationDaysOf job) else true)
    ∧ (∀ job : PJob, ∀ m : Int,
        (filterJob { maxDays := some m } job).passed
          = if 0 < m then decide (durationDaysOf job ≤ m) else true) := by
  refine ⟨?_, ?_, ?_, ?_, ?_⟩
  · intro s
    simp [durationDays]
  · norm_num [durationDays]
  · intro job
    by_cases h : durationDaysOf job < 2 <;>
      simp [filterJob, checkExcludePositionTypes, checkExcludeBuildings,
        checkExcludeBuildingIds, checkJobTypeFlags, checkPreferredPositionTypes,
        checkPreferredBuildings, checkPreferredBuildingIds, checkPreferredScheduleTypes,
        checkOnlyMultipleDays, checkMinDays, checkMaxDays, jsTruthyInt, h] <;>
      omega
  · intro job m
    by_cases hm : 0 < m
    · by_cases h : durationDaysOf job < m <;>
        simp [filterJob, checkExcludePositionTypes, checkExcludeBuildings,
          checkExcludeBuildingIds, checkJobTypeFlags, checkPreferredPositionTypes,
          checkPreferredBuildings, checkPreferredBuildingIds, checkPreferredScheduleTypes,
          checkOnlyMultipleDays, checkMinDays, checkMaxDays, jsTruthyInt, hm, h] <;>
        omega
    · simp [filterJob, checkExcludePositionTypes, checkExcludeBuildings,
        checkExcludeBuildingIds, checkJobTypeFlags, checkPreferredPositionTypes,
        checkPreferredBuildings, checkPreferredBuildingIds, checkPreferredScheduleTypes,
        checkOnlyMultipleDays, checkMinDays, checkMaxDays, jsTruthyInt, hm]
  · intro job m
    by_cases hm : 0 < m
    · by_cases h : m < durationDaysOf job <;>
        simp [filterJob, checkExcludePositionTypes, checkExcludeBuildings,
          checkExcludeBuildingIds, checkJobTypeFlags, checkPreferredPositionTypes,
          checkPreferredBuildings, checkPreferredBuildingIds, checkPreferredScheduleTypes,
          checkOnlyMultipleDays, checkMinDays, checkMaxDays, jsTruthyInt, hm, h] <;>
        omega
    · simp [filterJob, checkExcludePositionTypes, checkExcludeBuildings,
        checkExcludeBuildingIds, checkJobTypeFlags, checkPreferredPositionTypes,
        checkPreferredBuildings, checkPreferredBuildingIds, checkPreferredScheduleTypes,
        checkOnlyMultipleDays, checkMinDays, checkMaxDays, jsTruthyInt, hm]

/-!
## Claim C8: missing-date fabrication in normalization
-/

/-- Claim C8 counterexample: the claim's universal statement fails.  A
raw available record missing `startDate` but carrying a raw `date` field
is not normalized to today's date: the trailing `...job` spread in the
returned object literal overrides the computed `date`, so the raw value
wins. -/
theorem parse_available_date_not_defaulted :
    rawJobWithRawDate.startDate = none
    ∧ (parseAvailableJobs "2024-06-01" (RawPayload.arr [rawJobWithRawDate])).map Job.date
        = ["2020-05-05"]
    ∧ "2020-05-05" ≠ "2024-06-01" := by
  exact ⟨by decide, by decide, by decide⟩

/-- Claim C8 (amended): normalization fabricates missing dates only for
the available kind, never for scheduled — for every raw record missing
both `startDate` and `date`, `parseAvailableJobs` sets the normalized
`date` to today's date while `parseScheduledJobs` sets it to the empty
string; the raw `endDate` passes through unchanged in both parsers (the
computed endDate fallback — today's start for available, "" for
scheduled — is not a key of the returned object literal, so a missing
`endDate` stays missing). -/
theorem parse_missing_date_defaults
    (today : String) (raw : RawJob)
    (hstart : raw.startDate = none) (hdate : raw.date = none) :
    (parseAvailableJobs today (RawPayload.arr [raw])).map Job.date = [today]
    ∧ (parseScheduledJobs (RawPayload.arr [raw])).map Job.date = [""]
    ∧ (parseAvailableJobs today (RawPayload.arr [raw])).map Job.endDate = [raw.endDate]
    ∧ (parseScheduledJobs (RawPayload.arr [raw])).map Job.endDate = [raw.endDate] := by
  refine ⟨?_, ?_, ?_, ?_⟩ <;>
    simp [parseAvailableJobs, parseScheduledJobs, payloadList, normalizeAvailable,
      normalizeScheduled, spreadOverride, hstart, hdate, jsOrStr]

/-- Witness for `parse_missing_date_defaults` at a concrete input: an
all-absent raw record. -/
theorem parse_missing_date_defaults_witness :
    (parseAvailableJobs "2024-06-01" (RawPayload.arr [rawJobAllAbsent])).map Job.date
      = ["2024-06-01"]
    ∧ (parseScheduledJobs (RawPayload.arr [rawJobAllAbsent])).map Job.date = [""] := by
  have h := parse_missing_date_defaults "2024-06-01" rawJobAllAbsent rfl rfl
  exact ⟨h.1, h.2.1⟩

end Willsub
